import Mathlib

/-!
Verification of the go-dhclient DHCPv4 client library (digineo/go-dhclient).

The development shallowly embeds `client.go`. Machine integers are `Nat`
with explicit `% 2 ^ w` where overflow matters; Go `time.Time` values are
`Nat` timestamps with `0` standing for the zero value (`IsZero`); fallible
or panicking operations return `Option` (with `none` for a Go panic or a
nil-pointer dereference, as noted at each definition). Network input is
passed explicitly: the list of frames a raw-socket read loop would see, the
success of each send, and which arm of a `select` fires. Callback
invocations are recorded as an explicit event list (the Go code calls
`OnBound` / `OnExpire` function pointers; the model tracks only whether
they are set and which invocations happen, which is what the claims are
about). The `closedSocks` field of `Client` is a ghost trace of the raw
sockets closed so far; the Go code has no such field, it is the history of
the `conn.Close()` calls.
-/

namespace Dhclient

/-- Client states, from the `iota` block of client.go. -/
def requesting : Nat := 0

/-- Client state: a renewal was requested. -/
def renewing : Nat := 1

/-- Client state: shutdown in progress. -/
def shutdown : Nat := 2

/-- gopacket `layers.DHCPOpRequest` (BOOTREQUEST). -/
def dhcpOpRequest : Nat := 1

/-- gopacket `layers.DHCPOpReply` (BOOTREPLY). -/
def dhcpOpReply : Nat := 2

/-- gopacket `layers.LinkTypeEthernet`. -/
def linkTypeEthernet : Nat := 1

/-- DHCP message type `Discover`. -/
def msgTypeDiscover : Nat := 1

/-- DHCP message type `Offer`. -/
def msgTypeOffer : Nat := 2

/-- DHCP message type `Request`. -/
def msgTypeRequest : Nat := 3

/-- DHCP message type `Ack`. -/
def msgTypeAck : Nat := 5

/-- DHCP message type `Nak`. -/
def msgTypeNak : Nat := 6

/-- DHCP option code 53, message type. -/
def optMessageType : Nat := 53

/-- DHCP option code 55, parameter request list. -/
def optParamsRequest : Nat := 55

/-- DHCP option code 12, hostname. -/
def optHostname : Nat := 12

/-- DHCP option code 50, requested IP address. -/
def optRequestIP : Nat := 50

/-- DHCP option code 54, server identifier. -/
def optServerID : Nat := 54

/-- paramsRequestList from client.go: the option codes requested from the
server. -/
def paramsRequestList : List Nat := [1, 3, 4, 6, 15, 26, 42]

/-- Lease from client.go: the assignment by the DHCP server. IP addresses
and the domain name are byte lists; `renew`, `rebind`, `expire` are
`time.Time` values modelled as `Nat` timestamps where `0` is the Go zero
value (`IsZero`). -/
structure Lease where
  serverID : List Nat
  fixedAddress : List Nat
  netmask : List Nat
  nextServer : List Nat
  broadcast : List Nat
  router : List (List Nat)
  dns : List (List Nat)
  timeServer : List (List Nat)
  domainName : List Nat
  mtu : Nat
  renew : Nat
  rebind : Nat
  expire : Nat
deriving Repr, DecidableEq

/-- The all-empty lease value, a base for concrete instances. -/
def leaseZero : Lease :=
  ⟨[], [], [], [], [], [], [], [], [], 0, 0, 0, 0⟩

/-- Option from client.go (renamed: `Option` collides with the Lean
prelude): a DHCP option field to attach to an outbound request. -/
structure OptionField where
  type : Nat
  data : List Nat
deriving Repr, DecidableEq

/-- gopacket `layers.DHCPOption`: an option as it sits in a packet, with
its `Length` byte (`uint8`, hence `% 2 ^ 8`). -/
structure DHCPOption where
  type : Nat
  data : List Nat
  length : Nat
deriving Repr, DecidableEq

/-- gopacket `layers.DHCPv4`: the fields of the DHCP packet that
client.go sets or reads. -/
structure DHCPv4 where
  operation : Nat
  hardwareType : Nat
  clientHWAddr : List Nat
  xid : Nat
  options : List DHCPOption
deriving Repr, DecidableEq

/-- The state of a Go channel as far as `close` and non-blocking send
semantics see it: a nil channel (the zero value, before `Start`), an open
channel, or a closed one. -/
inductive ChanState where
  | nilChan : ChanState
  | opened : ChanState
  | closed : ChanState
deriving Repr, DecidableEq

/-- A callback invocation, recorded instead of calling a Go function
pointer: `bound l` is `OnBound(l)`, `expired l` is `OnExpire(l)`. -/
inductive Event where
  | bound : Option Lease → Event
  | expired : Option Lease → Event
deriving Repr, DecidableEq

/-- Client from client.go. `hostname` is the byte list Go obtains as
`[]byte(client.Hostname)`; `onBoundSet` / `onExpireSet` record whether the
callbacks are non-nil; `conn` is the raw socket (by id) or `none`;
`closedSocks` is the ghost trace of closed sockets (see the file
comment); the `sync` fields (`wg`, `mtx`) have no sequential content and
are not modelled. -/
structure Client where
  hostname : List Nat
  ifaceHWAddr : List Nat
  lease : Option Lease
  onBoundSet : Bool
  onExpireSet : Bool
  conn : Option Nat
  xid : Nat
  state : Nat
  notify : ChanState
  closedSocks : List Nat
deriving Repr, DecidableEq

/-- Modelled from the spec: the address-list option parser `parseIPs`
(its implementation file is not among the sources; only its test,
`TestParseIPs`, and the spec describe it). Per the spec, address-list
option data is parsed as a sequence of 4-byte IPv4 addresses, and a list
whose length is not a multiple of 4 yields as many complete addresses as
fit, the trailing partial bytes dropped, with no error. The four-element
pattern consumes one complete address per step; the final catch-all
drops the fewer-than-four trailing bytes. -/
def parseIPs : List Nat → List (List Nat)
  | a :: b :: c :: d :: rest => [a, b, c, d] :: parseIPs rest
  | _ => []

/-- newPacket from client.go: builds the outbound DHCP packet. The
`Length` byte of each appended option is `uint8(len(option.Data))`,
hence the `% 2 ^ 8`. -/
def newPacket (client : Client) (options : List OptionField) : DHCPv4 :=
  { operation := dhcpOpRequest
    hardwareType := linkTypeEthernet
    clientHWAddr := client.ifaceHWAddr
    xid := client.xid
    options := options.map (fun o => ⟨o.type, o.data, o.data.length % 2 ^ 8⟩) }

/-- The options discover sends (message type Discover, parameter request
list, hostname). -/
def discoverOptions (client : Client) : List OptionField :=
  [⟨optMessageType, [msgTypeDiscover]⟩,
   ⟨optParamsRequest, paramsRequestList⟩,
   ⟨optHostname, client.hostname⟩]

/-- The options request sends (message type Request, parameter request
list, hostname, requested IP, server id), built from the held lease. -/
def requestOptions (client : Client) (l : Lease) : List OptionField :=
  [⟨optMessageType, [msgTypeRequest]⟩,
   ⟨optParamsRequest, paramsRequestList⟩,
   ⟨optHostname, client.hostname⟩,
   ⟨optRequestIP, l.fixedAddress⟩,
   ⟨optServerID, l.serverID⟩]

/-- waitForResponse from client.go, over the list of parse results of the
frames the raw read loop sees in order (`none` = the frame did not parse
as DHCP: `parsePacket` returned nil and the loop continues). The function
`nl` stands for the packet decoder `newLease` (its implementation file is
not among the sources); the model is parametric in it. A frame is taken
only when its transaction id equals the client current `xid`, its
operation is BOOTREPLY, and its decoded message type is in `msgTypes`;
every other frame is skipped. An exhausted list is the read error /
deadline path, returning `none`. -/
def waitForResponse (nl : DHCPv4 → Nat × Lease) (xid : Nat)
    (msgTypes : List Nat) : List (Option DHCPv4) → Option (Nat × Lease)
  | [] => none
  | frame :: rest =>
    match frame with
    | none => waitForResponse nl xid msgTypes rest
    | some packet =>
      if packet.xid = xid ∧ packet.operation = dhcpOpReply then
        if (nl packet).1 ∈ msgTypes then some (nl packet)
        else waitForResponse nl xid msgTypes rest
      else waitForResponse nl xid msgTypes rest

/-- unbound from client.go: invokes `OnExpire` (when set) with the held
lease and removes the lease. Returned alongside the new client is the
list of callback invocations. -/
def unbound (client : Client) : Client × List Event :=
  ({ client with lease := none },
   if client.onExpireSet then [Event.expired client.lease] else [])

/-- setState from client.go: sets the state unless a shutdown is
running (the mutex that guards it has no sequential content). -/
def setState (client : Client) (newState : Nat) : Client :=
  if client.state ≠ shutdown then { client with state := newState }
  else client

/-- discover from client.go. `sendOk` is the result of `sendPacket` for
the Discover broadcast (which serializes `newPacket client
(discoverOptions client)`); `frames` feeds `waitForResponse`. On an
Offer the lease is stored in `client.Lease`. The error string is the
result value; `none` is success. -/
def discover (nl : DHCPv4 → Nat × Lease) (client : Client) (sendOk : Bool)
    (frames : List (Option DHCPv4)) : Client × List Event × Option String :=
  if !sendOk then (client, [], some "send error")
  else
    match waitForResponse nl client.xid [msgTypeOffer] frames with
    | none => (client, [], some "read error")
    | some (_, lease) => ({ client with lease := some lease }, [], none)

/-- request from client.go. Dereferences `client.Lease` to build the
Request options, so a nil lease is a Go nil-pointer dereference,
modelled as the overall result `none`. On Ack the lease is adopted only
when `Expire`, `Renew` and `Rebind` are all non-zero (the checks in that
order); on Nak `unbound` runs and the NAK error is returned. -/
def request (nl : DHCPv4 → Nat × Lease) (client : Client) (sendOk : Bool)
    (frames : List (Option DHCPv4)) :
    Option (Client × List Event × Option String) :=
  match client.lease with
  | none => none
  | some held =>
    let _opts := requestOptions client held
    if !sendOk then some (client, [], some "send error")
    else
      match waitForResponse nl client.xid [msgTypeAck, msgTypeNak] frames with
      | none => some (client, [], some "read error")
      | some (msgType, lease) =>
        if msgType = msgTypeAck then
          if lease.expire = 0 then
            some (client, [], some "expire value is zero")
          else if lease.renew = 0 then
            some (client, [], some "renewal value is zero")
          else if lease.rebind = 0 then
            some (client, [], some "rebinding value is zero")
          else
            some ({ client with lease := some lease }, [], none)
        else if msgType = msgTypeNak then
          let (c2, evs) := unbound client
          some (c2, evs, some "received NAK")
        else
          some (client, [], some "unexpected response")

/-- discoverAndRequest from client.go: discover, then, only on its
success, request. Events of the two phases are concatenated. -/
def discoverAndRequest (nl : DHCPv4 → Nat × Lease) (client : Client)
    (sendOk1 : Bool) (frames1 : List (Option DHCPv4))
    (sendOk2 : Bool) (frames2 : List (Option DHCPv4)) :
    Option (Client × List Event × Option String) :=
  match discover nl client sendOk1 frames1 with
  | (c1, evs1, some e) => some (c1, evs1, some e)
  | (c1, evs1, none) =>
    match request nl c1 sendOk2 frames2 with
    | none => none
    | some (c2, evs2, r) => some (c2, evs1 ++ evs2, r)

/-- withConnection from client.go. `openResult` is the outcome of
`raw.ListenPacket` (`none` = error, `some sock` = the socket opened at
entry); `newXid` is the fresh random transaction id. The deferred block
closes whatever `client.conn` holds when `f` returns and resets it to
nil; the close is recorded in the `closedSocks` ghost trace. A `none`
from `f` is a Go panic inside the transaction (never reached by the
call sites, which guard the lease). -/
def withConnection (client : Client) (openResult : Option Nat) (newXid : Nat)
    (f : Client → Option (Client × List Event × Option String)) :
    Option (Client × List Event × Option String) :=
  match openResult with
  | none => some (client, [], some "listen error")
  | some _sock =>
    let c1 := { client with conn := openResult, xid := newXid }
    match f c1 with
    | none => none
    | some (c2, evs, r) =>
      let closedNow := match c2.conn with
        | some s => [s]
        | none => []
      some ({ c2 with
                conn := none
                closedSocks := c2.closedSocks ++ closedNow }, evs, r)

/-- The arm of the timer / notification select at the end of runOnce
that fires, an input of the model: an external notification, the expire
deadline, the rebind deadline, or the renew deadline. -/
inductive SelectOutcome where
  | notified : SelectOutcome
  | expireTimer : SelectOutcome
  | rebindTimer : SelectOutcome
  | renewTimer : SelectOutcome
deriving Repr, DecidableEq

/-- The environment of one runOnce iteration: the `raw.ListenPacket`
outcome, the fresh transaction id, send results and frame lists for the
(up to) two protocol phases, and which select arm fires. -/
structure RunEnv where
  openResult : Option Nat
  newXid : Nat
  sendOk1 : Bool
  frames1 : List (Option DHCPv4)
  sendOk2 : Bool
  frames2 : List (Option DHCPv4)
  sel : SelectOutcome

/-- The tail of runOnce from client.go: on an error, log and delay (no
state change), otherwise race the notify channel against the three lease
timers and perform the corresponding transition. -/
def afterTransaction (client : Client) (evs : List Event)
    (r : Option String) (sel : SelectOutcome) : Client × List Event :=
  if r.isSome then (client, evs)
  else
    match sel with
    | SelectOutcome.notified => (client, evs)
    | SelectOutcome.expireTimer =>
      let (c2, evs2) := unbound client
      (setState c2 requesting, evs ++ evs2)
    | SelectOutcome.rebindTimer => (setState client requesting, evs)
    | SelectOutcome.renewTimer => (setState client renewing, evs)

/-- runOnce from client.go: with no lease or in the requesting state,
run the discover-then-request exchange and, on success, invoke `OnBound`
(when set) with the now-current lease; otherwise renew the existing
lease with a bare request. The transaction error (held in `err` in the
Go code) is returned alongside as an observable. -/
def runOnce (nl : DHCPv4 → Nat × Lease) (client : Client) (env : RunEnv) :
    Option (Client × List Event × Option String) :=
  if client.lease = none ∨ client.state = requesting then
    match withConnection client env.openResult env.newXid
        (fun c => discoverAndRequest nl c env.sendOk1 env.frames1
          env.sendOk2 env.frames2) with
    | none => none
    | some (c1, evs, r) =>
      let evs := if r = none ∧ c1.onBoundSet
        then evs ++ [Event.bound c1.lease] else evs
      let (c2, evs2) := afterTransaction c1 evs r env.sel
      some (c2, evs2, r)
  else
    match withConnection client env.openResult env.newXid
        (fun c => request nl c env.sendOk2 env.frames2) with
    | none => none
    | some (c1, evs, r) =>
      let (c2, evs2) := afterTransaction c1 evs r env.sel
      some (c2, evs2, r)

/-- run from client.go: iterate runOnce while the state is not
shutdown. The environment script supplies one `RunEnv` per iteration;
an exhausted script while the loop would still run is `none` (the model
cannot say what the loop does next), as is a panic inside an
iteration. -/
def run (nl : DHCPv4 → Nat × Lease) (client : Client) :
    List RunEnv → Option (Client × List Event)
  | [] =>
    if client.state = shutdown then some (client, []) else none
  | env :: rest =>
    if client.state = shutdown then some (client, [])
    else
      match runOnce nl client env with
      | none => none
      | some (c1, evs, _) =>
        match run nl c1 rest with
        | none => none
        | some (c2, evs2) => some (c2, evs ++ evs2)

/-- Closing a Go channel: closing a nil or an already-closed channel
panics (`none`). -/
def closeChan : ChanState → Option ChanState
  | ChanState.opened => some ChanState.closed
  | _ => none

/-- A Go `select` with a single send case and a `default` case.
`recvReady` says whether the run loop is blocked at a receive on the
channel right now. A nil channel can never proceed, so `default` is
taken (`some false`); an open channel delivers exactly when a receiver
is ready (`some recvReady`); a send on a closed channel can proceed and
panics (`none`). -/
def selectSendDefault : ChanState → Bool → Option Bool
  | ChanState.nilChan, _ => some false
  | ChanState.opened, recvReady => some recvReady
  | ChanState.closed, _ => none

/-- Start from client.go: starting an already-started client (non-nil
notify channel) is a `log.Panicf`, modelled as `none`; otherwise the
notify channel is created (the spawning of the run goroutine is the
callers business: `run` is modelled separately). -/
def Client.start (client : Client) : Option Client :=
  if client.notify ≠ ChanState.nilChan then none
  else some { client with notify := ChanState.opened }

/-- Stop from client.go: set the state to shutdown, close the notify
channel (a panic — `none` — when it is nil or already closed), and close
the raw socket when one is open (recorded in the ghost trace). The
`wg.Wait()` has no sequential content and is not modelled. -/
def Client.stop (client : Client) : Option Client :=
  let c1 := setState client shutdown
  match closeChan c1.notify with
  | none => none
  | some ch =>
    let c2 := { c1 with notify := ch }
    some (match c2.conn with
      | some s => { c2 with closedSocks := c2.closedSocks ++ [s] }
      | none => c2)

/-- Renew from client.go: set the renewing state, then a non-blocking
send on the notify channel (see `selectSendDefault`; `none` is the panic
on a closed channel). The `Bool` records whether the notification was
delivered or dropped. -/
def Client.renew (client : Client) (recvReady : Bool) :
    Option (Client × Bool) :=
  let c1 := setState client renewing
  match selectSendDefault c1.notify recvReady with
  | none => none
  | some delivered => some (c1, delivered)

/-- Rebind from client.go: set the requesting state, forget the lease,
then delegate to Renew. -/
def Client.rebind (client : Client) (recvReady : Bool) :
    Option (Client × Bool) :=
  let c1 := { setState client requesting with lease := none }
  Client.renew c1 recvReady

/-! Concrete sample values used by witnesses and counterexamples. -/

/-- A base client: hostname bytes "hi", a six-byte hardware address,
no lease, both callbacks set, transaction id 7, requesting state,
not yet started. -/
def clientBase : Client :=
  { hostname := [104, 105]
    ifaceHWAddr := [1, 2, 3, 4, 5, 6]
    lease := none
    onBoundSet := true
    onExpireSet := true
    conn := none
    xid := 7
    state := requesting
    notify := ChanState.nilChan
    closedSocks := [] }

/-- The first byte of the option with the given code in a packet, 0 when
the option is absent or empty: a small helper for the test decoder. -/
def optByte (p : DHCPv4) (code : Nat) : Nat :=
  match p.options.find? (fun o => o.type == code) with
  | some o => o.data.headD 0
  | none => 0

/-- A concrete packet decoder instantiating the parametric `newLease`
argument in witnesses and counterexamples: the message type is the first
byte of option 53, and the `Renew` / `Rebind` / `Expire` timestamps are
the first bytes of options 58, 59 and 51 (an absent option leaves the Go
zero value, 0). -/
def nlTest (p : DHCPv4) : Nat × Lease :=
  (optByte p optMessageType,
   { leaseZero with
       renew := optByte p 58
       rebind := optByte p 59
       expire := optByte p 51 })

/-- An Offer reply packet for transaction id 7 with all timing options. -/
def pOffer : DHCPv4 :=
  { operation := dhcpOpReply
    hardwareType := linkTypeEthernet
    clientHWAddr := [1, 2, 3, 4, 5, 6]
    xid := 7
    options := [⟨optMessageType, [msgTypeOffer], 1⟩, ⟨58, [5], 1⟩,
                ⟨59, [8], 1⟩, ⟨51, [9], 1⟩] }

/-- An Ack reply for transaction id 7 missing option 58, so its decoded
lease has `Renew = 0` (the Go zero time) while `Rebind` and `Expire` are
non-zero. -/
def pAckBad : DHCPv4 :=
  { operation := dhcpOpReply
    hardwareType := linkTypeEthernet
    clientHWAddr := [1, 2, 3, 4, 5, 6]
    xid := 7
    options := [⟨optMessageType, [msgTypeAck], 1⟩, ⟨59, [8], 1⟩,
                ⟨51, [9], 1⟩] }

/-- An Ack reply for transaction id 7 with all three timing options. -/
def pAckGood : DHCPv4 :=
  { operation := dhcpOpReply
    hardwareType := linkTypeEthernet
    clientHWAddr := [1, 2, 3, 4, 5, 6]
    xid := 7
    options := [⟨optMessageType, [msgTypeAck], 1⟩, ⟨58, [5], 1⟩,
                ⟨59, [8], 1⟩, ⟨51, [9], 1⟩] }

/-- A Nak reply for transaction id 7. -/
def pNak : DHCPv4 :=
  { operation := dhcpOpReply
    hardwareType := linkTypeEthernet
    clientHWAddr := [1, 2, 3, 4, 5, 6]
    xid := 7
    options := [⟨optMessageType, [msgTypeNak], 1⟩] }

/-- An Offer reply carrying a foreign transaction id 9. -/
def pStale : DHCPv4 :=
  { pOffer with xid := 9 }

/-! Helper lemmas. -/

/-- The parsed list holds one entry per complete 4-byte group. -/
theorem parseIPs_length (data : List Nat) :
    (parseIPs data).length = data.length / 4 := by
  induction data using parseIPs.induct with
  | case1 a b c d rest ih =>
    simp only [parseIPs, List.length_cons, ih]
    omega
  | case2 data h =>
    match data, h with
    | [], _ => simp [parseIPs]
    | [a], _ => simp [parseIPs]
    | [a, b], _ => simp [parseIPs]
    | [a, b, c], _ => simp [parseIPs]
    | a :: b :: c :: d :: rest, h => exact absurd rfl (h a b c d rest)

/-- Entry `i` of the parsed list is bytes `4 * i .. 4 * i + 3`. -/
theorem parseIPs_get (data : List Nat) (i : Nat) :
    (parseIPs data)[i]? =
      if i < data.length / 4 then some ((data.drop (4 * i)).take 4)
      else none := by
  induction data using parseIPs.induct generalizing i with
  | case1 a b c d rest ih =>
    cases i with
    | zero =>
      simp only [parseIPs, List.getElem?_cons_zero, List.length_cons,
        Nat.mul_zero, List.drop_zero]
      rw [if_pos (by omega)]
      simp [List.take_succ_cons]
    | succ j =>
      simp only [parseIPs, List.getElem?_cons_succ, ih, List.length_cons]
      have h1 : 4 * (j + 1) = 4 * j + 4 := by ring
      rw [h1]
      have h2 : List.drop (4 * j + 4) (a :: b :: c :: d :: rest) =
          List.drop (4 * j) rest := rfl
      rw [h2]
      by_cases hj : j < rest.length / 4
      · rw [if_pos hj, if_pos (by omega)]
      · rw [if_neg hj, if_neg (by omega)]
  | case2 data h =>
    match data, h with
    | [], _ => simp [parseIPs]
    | [a], _ => simp [parseIPs, Nat.div_eq_of_lt]
    | [a, b], _ => simp [parseIPs, Nat.div_eq_of_lt]
    | [a, b, c], _ => simp [parseIPs, Nat.div_eq_of_lt]
    | a :: b :: c :: d :: rest, h => exact absurd rfl (h a b c d rest)

/-! Claim theorems. -/

/-- C4: for every byte sequence, `parseIPs` yields exactly
`floor (length / 4)` IPv4 addresses, the i-th built from bytes
`4 i .. 4 i + 3`, trailing partial bytes dropped and no error; an input
of length 6 yields exactly one address, an input of length 3 none (the
last two conjuncts also replay the concrete cases of `TestParseIPs`). -/
theorem parseIPs_complete_addresses (data : List Nat) :
    (parseIPs data).length = data.length / 4 ∧
    (∀ i : Nat, (parseIPs data)[i]? =
      if i < data.length / 4 then some ((data.drop (4 * i)).take 4)
      else none) ∧
    parseIPs [143, 209, 4, 1, 143, 209] = [[143, 209, 4, 1]] ∧
    parseIPs [143, 209, 4] = [] ∧
    parseIPs [143, 209, 4, 1, 143, 209, 5, 1] =
      [[143, 209, 4, 1], [143, 209, 5, 1]] :=
  ⟨parseIPs_length data, fun i => parseIPs_get data i,
   by decide, by decide, by decide⟩

set_option maxRecDepth 4096 in
/-- C3 as stated is false: the `Length` byte is `uint8(len(Data))`, so an
option whose payload has 256 bytes gets `Length = 0`, not 256. -/
theorem newPacket_length_counterexample :
    ¬ (∀ o ∈ (newPacket clientBase
          [⟨optHostname, List.replicate 256 97⟩]).options,
        o.length = o.data.length) := by
  decide

/-- C3 amended: `newPacket` produces operation BOOTREQUEST, Ethernet
hardware type, the interface hardware address, the current transaction
id, and exactly the supplied options in order, each with
`Length = payload length mod 2 ^ 8` (the `uint8` truncation); whenever a
payload is shorter than 256 bytes its `Length` equals the payload length
exactly. -/
theorem newPacket_fields (client : Client) (options : List OptionField) :
    (newPacket client options).operation = dhcpOpRequest ∧
    (newPacket client options).hardwareType = linkTypeEthernet ∧
    (newPacket client options).clientHWAddr = client.ifaceHWAddr ∧
    (newPacket client options).xid = client.xid ∧
    (newPacket client options).options =
      options.map (fun o => ⟨o.type, o.data, o.data.length % 2 ^ 8⟩) ∧
    ∀ o ∈ options, o.data.length < 2 ^ 8 →
      (⟨o.type, o.data, o.data.length⟩ : DHCPOption) ∈
        (newPacket client options).options := by
  refine ⟨rfl, rfl, rfl, rfl, rfl, ?_⟩
  intro o ho hlen
  simp only [newPacket, List.mem_map]
  exact ⟨o, ho, by rw [Nat.mod_eq_of_lt hlen]⟩

/-- Witness for the C3 theorem at a concrete two-byte hostname option. -/
theorem newPacket_fields_witness :
    (⟨optHostname, [104, 105], 2⟩ : DHCPOption) ∈
      (newPacket clientBase [⟨optHostname, [104, 105]⟩]).options :=
  (newPacket_fields clientBase [⟨optHostname, [104, 105]⟩]).2.2.2.2.2
    ⟨optHostname, [104, 105]⟩ (by decide) (by decide)

/-- Every accepted response of `waitForResponse` passed all three checks
on some received frame. -/
theorem waitForResponse_sound (nl : DHCPv4 → Nat × Lease) (xid : Nat)
    (msgTypes : List Nat) (frames : List (Option DHCPv4))
    (msgType : Nat) (lease : Lease)
    (h : waitForResponse nl xid msgTypes frames = some (msgType, lease)) :
    msgType ∈ msgTypes ∧
    ∃ packet, some packet ∈ frames ∧ packet.xid = xid ∧
      packet.operation = dhcpOpReply ∧ nl packet = (msgType, lease) := by
  induction frames with
  | nil => exact absurd h (by simp [waitForResponse])
  | cons frame rest ih =>
    match frame with
    | none =>
      rw [waitForResponse] at h
      obtain ⟨hm, p, hp, h1, h2, h3⟩ := ih h
      exact ⟨hm, p, List.mem_cons_of_mem _ hp, h1, h2, h3⟩
    | some packet =>
      rw [waitForResponse] at h
      by_cases hc : packet.xid = xid ∧ packet.operation = dhcpOpReply
      · rw [if_pos hc] at h
        by_cases hmt : (nl packet).1 ∈ msgTypes
        · rw [if_pos hmt] at h
          have hpair : nl packet = (msgType, lease) := Option.some.inj h
          rw [hpair] at hmt
          exact ⟨hmt, packet, List.mem_cons_self _ _, hc.1, hc.2, hpair⟩
        · rw [if_neg hmt] at h
          obtain ⟨hm, p, hp, h1, h2, h3⟩ := ih h
          exact ⟨hm, p, List.mem_cons_of_mem _ hp, h1, h2, h3⟩
      · rw [if_neg hc] at h
        obtain ⟨hm, p, hp, h1, h2, h3⟩ := ih h
        exact ⟨hm, p, List.mem_cons_of_mem _ hp, h1, h2, h3⟩

/-- A head frame failing any of the three checks is skipped: the loop
continues on the remaining frames with the result unchanged. -/
theorem waitForResponse_skips (nl : DHCPv4 → Nat × Lease) (xid : Nat)
    (msgTypes : List Nat) (frame : Option DHCPv4)
    (rest : List (Option DHCPv4))
    (h : ∀ packet, frame = some packet →
      ¬(packet.xid = xid ∧ packet.operation = dhcpOpReply ∧
        (nl packet).1 ∈ msgTypes)) :
    waitForResponse nl xid msgTypes (frame :: rest) =
      waitForResponse nl xid msgTypes rest := by
  match frame with
  | none => rw [waitForResponse]
  | some packet =>
    rw [waitForResponse]
    by_cases hc : packet.xid = xid ∧ packet.operation = dhcpOpReply
    · rw [if_pos hc]
      have hmt : ¬((nl packet).1 ∈ msgTypes) := by
        intro hm
        exact h packet rfl ⟨hc.1, hc.2, hm⟩
      rw [if_neg hmt]
    · rw [if_neg hc]

/-- C1: a received frame becomes the response of `waitForResponse` only
if its operation is BOOTREPLY, its transaction id equals the client
current xid, and its decoded message type is in the acceptable set (so
no reply with a differing transaction id is ever returned, hence never
adopted as the current lease); and a frame failing any of these checks
is skipped, the receive loop continuing on the remaining frames. -/
theorem waitForResponse_filters (nl : DHCPv4 → Nat × Lease) (xid : Nat)
    (msgTypes : List Nat) (frame : Option DHCPv4)
    (rest : List (Option DHCPv4)) :
    (∀ msgType lease,
      waitForResponse nl xid msgTypes (frame :: rest) =
        some (msgType, lease) →
      msgType ∈ msgTypes ∧
      ∃ packet, some packet ∈ frame :: rest ∧ packet.xid = xid ∧
        packet.operation = dhcpOpReply ∧ nl packet = (msgType, lease)) ∧
    ((∀ packet, frame = some packet →
      ¬(packet.xid = xid ∧ packet.operation = dhcpOpReply ∧
        (nl packet).1 ∈ msgTypes)) →
      waitForResponse nl xid msgTypes (frame :: rest) =
        waitForResponse nl xid msgTypes rest) :=
  ⟨fun msgType lease h =>
      waitForResponse_sound nl xid msgTypes (frame :: rest) msgType lease h,
   fun h => waitForResponse_skips nl xid msgTypes frame rest h⟩

/-- Witness for C1: a stale Offer (transaction id 9 instead of 7) at the
head of the frame list is skipped, and the Offer for the current
transaction id 7 behind it is the accepted response. -/
theorem waitForResponse_filters_witness :
    (waitForResponse nlTest 7 [msgTypeOffer] [some pStale, some pOffer] =
      waitForResponse nlTest 7 [msgTypeOffer] [some pOffer]) ∧
    (msgTypeOffer ∈ [msgTypeOffer] ∧
      ∃ packet, some packet ∈ [some pStale, some pOffer] ∧
        packet.xid = 7 ∧ packet.operation = dhcpOpReply ∧
        nlTest packet = (msgTypeOffer, (nlTest pOffer).2)) :=
  ⟨(waitForResponse_filters nlTest 7 [msgTypeOffer] (some pStale)
      [some pOffer]).2
    (by decide),
   (waitForResponse_filters nlTest 7 [msgTypeOffer] (some pStale)
      [some pOffer]).1 msgTypeOffer (nlTest pOffer).2 (by decide)⟩

/-- The lease decoded from `pOffer` (and from `pAckGood`) by `nlTest`. -/
def offerLease : Lease :=
  { leaseZero with renew := 5, rebind := 8, expire := 9 }

/-- A client holding `offerLease`, in the renewing state. -/
def clientWithLease : Client :=
  { clientBase with lease := some offerLease, state := renewing }

/-- discover either succeeds or leaves the client untouched with a send
or read error. -/
theorem discover_result (nl : DHCPv4 → Nat × Lease) (c : Client)
    (sendOk : Bool) (frames : List (Option DHCPv4)) :
    (discover nl c sendOk frames).2.2 = none ∨
    ((discover nl c sendOk frames).1 = c ∧
      ((discover nl c sendOk frames).2.2 = some "send error" ∨
       (discover nl c sendOk frames).2.2 = some "read error")) := by
  unfold discover
  split
  · exact Or.inr ⟨rfl, Or.inl rfl⟩
  · split
    · exact Or.inr ⟨rfl, Or.inr rfl⟩
    · exact Or.inl rfl

/-- Case analysis of request: success adopts an Ack lease with all three
timing fields non-zero; the NAK error leaves no lease; the three
zero-field errors leave the client exactly as it was. -/
theorem request_cases (nl : DHCPv4 → Nat × Lease) (c : Client)
    (sendOk : Bool) (frames : List (Option DHCPv4))
    (out : Client × List Event × Option String)
    (h : request nl c sendOk frames = some out) :
    (out.2.2 = none →
      ∃ l, out.1.lease = some l ∧ l.renew ≠ 0 ∧ l.rebind ≠ 0 ∧
        l.expire ≠ 0) ∧
    (out.2.2 = some "received NAK" → out.1.lease = none) ∧
    ((out.2.2 = some "expire value is zero" ∨
      out.2.2 = some "renewal value is zero" ∨
      out.2.2 = some "rebinding value is zero") → out.1 = c) := by
  unfold request at h
  split at h
  · exact absurd h (by simp)
  · split at h
    · -- send error
      obtain rfl := Option.some.inj h
      refine ⟨fun hn => absurd hn (by simp),
        fun hn => absurd (Option.some.inj hn) (by decide), fun hn => ?_⟩
      rcases hn with hn | hn | hn <;>
        exact absurd (Option.some.inj hn) (by decide)
    · split at h
      · -- read error
        obtain rfl := Option.some.inj h
        refine ⟨fun hn => absurd hn (by simp),
          fun hn => absurd (Option.some.inj hn) (by decide), fun hn => ?_⟩
        rcases hn with hn | hn | hn <;>
          exact absurd (Option.some.inj hn) (by decide)
      · split at h
        · -- Ack branch
          split at h
          · -- expire zero
            obtain rfl := Option.some.inj h
            refine ⟨fun hn => absurd hn (by simp),
              fun hn => absurd (Option.some.inj hn) (by decide),
              fun _ => rfl⟩
          · split at h
            · -- renew zero
              obtain rfl := Option.some.inj h
              refine ⟨fun hn => absurd hn (by simp),
                fun hn => absurd (Option.some.inj hn) (by decide),
                fun _ => rfl⟩
            · split at h
              · -- rebind zero
                obtain rfl := Option.some.inj h
                refine ⟨fun hn => absurd hn (by simp),
                  fun hn => absurd (Option.some.inj hn) (by decide),
                  fun _ => rfl⟩
              · -- adoption
                obtain rfl := Option.some.inj h
                rename_i lease _ _ hexp hren hreb
                refine ⟨fun _ => ⟨lease, rfl, hren, hreb, hexp⟩,
                  fun hn => absurd hn (by simp), fun hn => ?_⟩
                rcases hn with hn | hn | hn <;> exact absurd hn (by simp)
        · split at h
          · -- Nak branch: unbound runs
            simp only [unbound] at h
            obtain rfl := Option.some.inj h
            refine ⟨fun hn => absurd hn (by simp), fun _ => rfl,
              fun hn => ?_⟩
            rcases hn with hn | hn | hn <;>
              exact absurd (Option.some.inj hn) (by decide)
          · -- unexpected message type
            obtain rfl := Option.some.inj h
            refine ⟨fun hn => absurd hn (by simp),
              fun hn => absurd (Option.some.inj hn) (by decide),
              fun hn => ?_⟩
            rcases hn with hn | hn | hn <;>
              exact absurd (Option.some.inj hn) (by decide)

/-- C2 as stated is false: after discover adopts an Offer, an Ack whose
`Renew` field is zero makes the exchange return the "renewal value is
zero" error, yet `client.Lease` still holds the Offer lease stored by
discover — the client is not lease-less. -/
theorem discoverAndRequest_malformed_ack_counterexample :
    (discoverAndRequest nlTest clientBase true [some pOffer] true
        [some pAckBad]).map (fun r => (r.2.2, r.1.lease)) =
      some (some "renewal value is zero", some offerLease) ∧
    some offerLease ≠ (none : Option Lease) := by
  exact ⟨by decide, by decide⟩

/-- C2 amended: the discover-then-request exchange adopts a lease from
the request phase only on an Ack whose `Renew`, `Rebind` and `Expire`
fields are all non-zero (success implies such a lease is held); on a Nak
the client holds no lease afterwards; but on an Ack with a zero timing
field the exchange returns an error while `client.Lease` retains the
Offer lease adopted during discover rather than becoming nil. -/
theorem discoverAndRequest_adoption (nl : DHCPv4 → Nat × Lease)
    (c : Client) (s1 : Bool) (f1 : List (Option DHCPv4))
    (s2 : Bool) (f2 : List (Option DHCPv4))
    (out : Client × List Event × Option String)
    (h : discoverAndRequest nl c s1 f1 s2 f2 = some out) :
    (out.2.2 = none →
      ∃ l, out.1.lease = some l ∧ l.renew ≠ 0 ∧ l.rebind ≠ 0 ∧
        l.expire ≠ 0) ∧
    (out.2.2 = some "received NAK" → out.1.lease = none) ∧
    ((out.2.2 = some "expire value is zero" ∨
      out.2.2 = some "renewal value is zero" ∨
      out.2.2 = some "rebinding value is zero") →
      out.1.lease = (discover nl c s1 f1).1.lease) := by
  unfold discoverAndRequest at h
  rcases hdis : discover nl c s1 f1 with ⟨c1, evs1, r1⟩
  rw [hdis] at h
  cases r1 with
  | some e =>
    simp only [] at h
    have hout := Option.some.inj h
    subst hout
    have hd := discover_result nl c s1 f1
    rw [hdis] at hd
    simp only [] at hd
    rcases hd with hd | ⟨_, hd⟩
    · exact absurd hd (by simp)
    · refine ⟨fun hn => absurd hn (by simp), fun hn => ?_, fun hn => ?_⟩
      · rcases hd with hd | hd <;> rw [Option.some.inj hd] at hn <;>
          exact absurd (Option.some.inj hn) (by decide)
      · rcases hn with hn | hn | hn <;> rcases hd with hd | hd <;>
          rw [Option.some.inj hd] at hn <;>
          exact absurd (Option.some.inj hn) (by decide)
  | none =>
    simp only [] at h
    cases hreq : request nl c1 s2 f2 with
    | none => rw [hreq] at h; exact absurd h (by simp)
    | some out2 =>
      rw [hreq] at h
      rcases out2 with ⟨c2, evs2, r2⟩
      have hout := Option.some.inj h
      subst hout
      have hc := request_cases nl c1 s2 f2 (c2, evs2, r2) hreq
      refine ⟨fun hn => hc.1 hn, fun hn => hc.2.1 hn, fun hn => ?_⟩
      · have hceq : c2 = c1 := hc.2.2 hn
        subst hceq
        rfl

/-- The outcome of the concrete exchange that receives an Offer and then
a Nak: the Offer lease is expired away again, the NAK error returned. -/
def darNakOut : Client × List Event × Option String :=
  (clientBase, [Event.expired (some offerLease)], some "received NAK")

/-- Witness for the C2 theorem: the concrete Offer-then-Nak exchange
ends with no lease held. -/
theorem discoverAndRequest_adoption_witness : darNakOut.1.lease = none :=
  (discoverAndRequest_adoption nlTest clientBase true [some pOffer] true
    [some pNak] darNakOut (by decide)).2.1 (by decide)

/-- C5: whenever request receives a Nak response (the matched reply
decodes to message type Nak), the expire callback — when set — is
invoked with the lease held at that moment, the held lease is dropped
(`client.Lease` becomes nil, so the next run-loop iteration takes the
discovery branch), and request returns the NAK error. -/
theorem request_nak_drops_lease (nl : DHCPv4 → Nat × Lease) (c : Client)
    (frames : List (Option DHCPv4))
    (out : Client × List Event × Option String)
    (h : request nl c true frames = some out)
    (hnak : (waitForResponse nl c.xid [msgTypeAck, msgTypeNak] frames).map
        Prod.fst = some msgTypeNak) :
    out.2.2 = some "received NAK" ∧ out.1.lease = none ∧
    out.2.1 = (if c.onExpireSet then [Event.expired c.lease] else []) := by
  unfold request at h
  split at h
  · exact absurd h (by simp)
  · rename_i held hheld
    rw [if_neg (by simp)] at h
    cases hw : waitForResponse nl c.xid [msgTypeAck, msgTypeNak] frames with
    | none => rw [hw] at hnak; exact absurd hnak (by simp)
    | some res =>
      rw [hw] at hnak h
      rcases res with ⟨msgType, lease⟩
      simp only [Option.map_some'] at hnak
      have hmt : msgType = msgTypeNak := Option.some.inj hnak
      subst hmt
      simp only [] at h
      rw [if_pos trivial] at h
      simp only [unbound] at h
      obtain rfl := Option.some.inj h
      exact ⟨rfl, rfl, rfl⟩

/-- The outcome of the concrete renewal that receives a Nak: the expire
callback fires with the held Offer lease, the lease is dropped, the NAK
error returned. -/
def requestNakOut : Client × List Event × Option String :=
  ({ clientWithLease with lease := none },
   [Event.expired (some offerLease)], some "received NAK")

/-- Witness for the C5 theorem at the concrete client holding
`offerLease` that receives `pNak`. -/
theorem request_nak_drops_lease_witness :
    requestNakOut.2.2 = some "received NAK" ∧
    requestNakOut.1.lease = none ∧
    requestNakOut.2.1 = (if clientWithLease.onExpireSet then
      [Event.expired clientWithLease.lease] else []) :=
  request_nak_drops_lease nlTest clientWithLease [some pNak] requestNakOut
    (by decide) (by decide)

/-- discover never touches the raw socket field. -/
theorem discover_conn (nl : DHCPv4 → Nat × Lease) (c : Client)
    (sendOk : Bool) (frames : List (Option DHCPv4)) :
    (discover nl c sendOk frames).1.conn = c.conn := by
  unfold discover
  split
  · rfl
  · split
    · rfl
    · rfl

/-- request never touches the raw socket field. -/
theorem request_conn (nl : DHCPv4 → Nat × Lease) (c : Client)
    (sendOk : Bool) (frames : List (Option DHCPv4))
    (out : Client × List Event × Option String)
    (h : request nl c sendOk frames = some out) :
    out.1.conn = c.conn := by
  unfold request at h
  split at h
  · exact absurd h (by simp)
  · split at h
    · obtain rfl := Option.some.inj h; rfl
    · split at h
      · obtain rfl := Option.some.inj h; rfl
      · split at h
        · split at h
          · obtain rfl := Option.some.inj h; rfl
          · split at h
            · obtain rfl := Option.some.inj h; rfl
            · split at h
              · obtain rfl := Option.some.inj h; rfl
              · obtain rfl := Option.some.inj h; rfl
        · split at h
          · simp only [unbound] at h
            obtain rfl := Option.some.inj h; rfl
          · obtain rfl := Option.some.inj h; rfl

/-- discoverAndRequest never touches the raw socket field. -/
theorem discoverAndRequest_conn (nl : DHCPv4 → Nat × Lease) (c : Client)
    (s1 : Bool) (f1 : List (Option DHCPv4))
    (s2 : Bool) (f2 : List (Option DHCPv4))
    (out : Client × List Event × Option String)
    (h : discoverAndRequest nl c s1 f1 s2 f2 = some out) :
    out.1.conn = c.conn := by
  unfold discoverAndRequest at h
  rcases hdis : discover nl c s1 f1 with ⟨c1, evs1, r1⟩
  rw [hdis] at h
  have hc1 : c1.conn = c.conn := by
    have hd := discover_conn nl c s1 f1
    rw [hdis] at hd
    exact hd
  cases r1 with
  | some e =>
    obtain rfl := Option.some.inj h
    exact hc1
  | none =>
    simp only [] at h
    cases hreq : request nl c1 s2 f2 with
    | none => rw [hreq] at h; exact absurd h (by simp)
    | some out2 =>
      rw [hreq] at h
      rcases out2 with ⟨c2, evs2, r2⟩
      obtain rfl := Option.some.inj h
      have hc2 := request_conn nl c1 s2 f2 (c2, evs2, r2) hreq
      exact hc2.trans hc1

/-- C6: for every invocation of withConnection whose wrapped transaction
function returns (success or error) and does not itself reassign the
socket field — as discover, request and discoverAndRequest provably do
not — the raw socket opened at entry is in the closed-socket trace and
the conn field is nil when withConnection returns to its caller. -/
theorem withConnection_closes_socket (c : Client) (sock : Nat)
    (newXid : Nat)
    (f : Client → Option (Client × List Event × Option String))
    (out : Client × List Event × Option String)
    (h : withConnection c (some sock) newXid f = some out)
    (hf : ∀ cc o, f cc = some o → o.1.conn = cc.conn) :
    out.1.conn = none ∧ sock ∈ out.1.closedSocks := by
  unfold withConnection at h
  simp only [] at h
  cases hf1 : f { c with conn := some sock, xid := newXid } with
  | none => rw [hf1] at h; exact absurd h (by simp)
  | some out2 =>
    rw [hf1] at h
    rcases out2 with ⟨c2, evs, r⟩
    have hconn : c2.conn = some sock :=
      hf { c with conn := some sock, xid := newXid } (c2, evs, r) hf1
    obtain rfl := Option.some.inj h
    refine ⟨rfl, ?_⟩
    show sock ∈ c2.closedSocks ++ _
    rw [hconn]
    simp

/-- The outcome of the concrete withConnection call wrapping a full
successful exchange on socket 3. -/
def wcOut : Client × List Event × Option String :=
  ({ clientBase with
       lease := some offerLease
       conn := none
       closedSocks := [3] }, [], none)

/-- Witness for the C6 theorem: wrapping the concrete successful
exchange on socket 3 leaves conn nil and socket 3 closed. -/
theorem withConnection_closes_socket_witness :
    wcOut.1.conn = none ∧ 3 ∈ wcOut.1.closedSocks :=
  withConnection_closes_socket clientBase 3 7
    (fun cc => discoverAndRequest nlTest cc true [some pOffer] true
      [some pAckGood])
    wcOut (by decide)
    (fun cc o hcc => discoverAndRequest_conn nlTest cc true [some pOffer]
      true [some pAckGood] o hcc)

/-- Setting the shutdown state always lands in the shutdown state. -/
theorem setState_state_shutdown (c : Client) :
    (setState c shutdown).state = shutdown := by
  unfold setState
  split
  · rfl
  · rename_i hns
    simp only [ne_eq, Decidable.not_not] at hns
    exact hns

/-- setState never touches the notify channel. -/
theorem setState_notify (c : Client) (s : Nat) :
    (setState c s).notify = c.notify := by
  unfold setState
  split
  · rfl
  · rfl

/-- On a client already in the shutdown state, setState is the
identity. -/
theorem setState_of_shutdown (c : Client) (s : Nat)
    (h : c.state = shutdown) : setState c s = c := by
  unfold setState
  rw [if_neg]
  simp [h]

/-- Stopping a client whose notify channel is already closed panics. -/
theorem stop_of_closed (c : Client) (h : c.notify = ChanState.closed) :
    Client.stop c = none := by
  unfold Client.stop
  simp only []
  rw [setState_notify, h]
  exact rfl

/-- A started client, ready to be stopped. -/
def clientStarted : Client :=
  { clientBase with notify := ChanState.opened }

/-- C7 as stated is false: the first Stop completes, but a second Stop
panics (`close` of an already-closed notify channel), so Stop is not
safe to call twice. -/
theorem stop_twice_counterexample :
    (Client.stop clientStarted).isSome = true ∧
    (Client.stop clientStarted).bind Client.stop = none := by
  exact ⟨by decide, by decide⟩

/-- C7 amended: a completed Stop leaves the client in the shutdown
state with a closed notify channel, and a second Stop on that client
panics (close of a closed channel) instead of completing. -/
theorem stop_not_idempotent (c : Client) (c2 : Client)
    (h : Client.stop c = some c2) :
    c2.state = shutdown ∧ c2.notify = ChanState.closed ∧
    Client.stop c2 = none := by
  unfold Client.stop at h
  simp only [] at h
  cases hch : closeChan (setState c shutdown).notify with
  | none => rw [hch] at h; exact absurd h (by simp)
  | some ch =>
    rw [hch] at h
    have hcc : ch = ChanState.closed := by
      cases hnot : (setState c shutdown).notify <;> rw [hnot] at hch
      · exact absurd hch (by simp [closeChan])
      · exact (Option.some.inj hch).symm
      · exact absurd hch (by simp [closeChan])
    subst hcc
    obtain rfl := Option.some.inj h
    refine ⟨?_, ?_, ?_⟩
    · split
      · exact setState_state_shutdown c
      · exact setState_state_shutdown c
    · split
      · rfl
      · rfl
    · split
      · exact stop_of_closed _ rfl
      · exact stop_of_closed _ rfl

/-- Witness for the C7 theorem: stopping the concrete started client
once succeeds; the theorem then gives the panic of the second Stop. -/
theorem stop_not_idempotent_witness :
    Client.stop clientStarted =
      some { clientBase with
               state := shutdown
               notify := ChanState.closed } ∧
    Client.stop { clientBase with
                    state := shutdown
                    notify := ChanState.closed } = none :=
  ⟨by decide,
   (stop_not_idempotent clientStarted
     { clientBase with state := shutdown, notify := ChanState.closed }
     (by decide)).2.2⟩

/-- Renew on a client already in the shutdown state keeps the shutdown
state, whatever the send outcome. -/
theorem renew_state_shutdown (c : Client) (recvReady : Bool)
    (h : c.state = shutdown) :
    ∀ out, Client.renew c recvReady = some out →
      out.1.state = shutdown := by
  intro out hout
  unfold Client.renew at hout
  simp only [] at hout
  rw [setState_of_shutdown c renewing h] at hout
  cases hsel : selectSendDefault c.notify recvReady with
  | none => rw [hsel] at hout; exact absurd hout (by simp)
  | some delivered =>
    rw [hsel] at hout
    obtain rfl := Option.some.inj hout
    exact h

/-- C8: the shutdown state is terminal and absorbing: once the state
flag equals shutdown, no setState call changes it, Renew and Rebind
(whose only state writes go through setState) leave it in place, and
the run loop exits at its next check without performing an
iteration. -/
theorem shutdown_terminal (c : Client) (s : Nat) (recvReady : Bool)
    (nl : DHCPv4 → Nat × Lease) (script : List RunEnv)
    (h : c.state = shutdown) :
    (setState c s).state = shutdown ∧
    (∀ out, Client.renew c recvReady = some out →
      out.1.state = shutdown) ∧
    (∀ out, Client.rebind c recvReady = some out →
      out.1.state = shutdown) ∧
    run nl c script = some (c, []) := by
  refine ⟨?_, renew_state_shutdown c recvReady h, ?_, ?_⟩
  · rw [setState_of_shutdown c s h]
    exact h
  · intro out hout
    unfold Client.rebind at hout
    rw [setState_of_shutdown c requesting h] at hout
    exact renew_state_shutdown { c with lease := none } recvReady h out hout
  · cases script with
    | nil => simp [run, h]
    | cons env rest => simp [run, h]

/-- A client in the shutdown state, as left behind by Stop. -/
def clientShutdown : Client :=
  { clientBase with state := shutdown, notify := ChanState.closed }

/-- Witness for the C8 theorem at the concrete stopped client,
discharging the shutdown-state hypothesis. -/
theorem shutdown_terminal_witness :
    clientShutdown.state = shutdown ∧
    ((setState clientShutdown 0).state = shutdown ∧
     (∀ out, Client.renew clientShutdown true = some out →
       out.1.state = shutdown) ∧
     (∀ out, Client.rebind clientShutdown true = some out →
       out.1.state = shutdown) ∧
     run nlTest clientShutdown [] = some (clientShutdown, [])) :=
  ⟨rfl, shutdown_terminal clientShutdown 0 true nlTest [] rfl⟩

/-- A stopped client as Renew or Rebind would find it after Stop:
notify channel closed. -/
def clientStopped : Client :=
  { clientBase with state := shutdown, notify := ChanState.closed }

/-- C10 as stated is false in one corner: on a client whose notify
channel is closed (after Stop), the non-blocking send in Renew panics
(send on a closed channel can proceed in a Go select and panics)
instead of dropping the notification. -/
theorem renew_closed_chan_counterexample :
    Client.renew clientStopped false = none := by decide

/-- C10 amended: Renew never blocks the caller: with a nil notify
channel (before Start) the notification is dropped and Renew returns
promptly without panicking — likewise Rebind, which delegates to it;
with an open channel it is delivered exactly when the run loop is ready
to receive and dropped otherwise; but with a closed channel (after
Stop) Renew panics rather than dropping the notification. -/
theorem renew_nonblocking (c : Client) (recvReady : Bool) :
    (c.notify = ChanState.nilChan →
      Client.renew c recvReady = some (setState c renewing, false)) ∧
    (c.notify = ChanState.opened →
      Client.renew c recvReady = some (setState c renewing, recvReady)) ∧
    (c.notify = ChanState.closed →
      Client.renew c recvReady = none) ∧
    (c.notify = ChanState.nilChan →
      (Client.rebind c recvReady).isSome = true) := by
  refine ⟨fun h => ?_, fun h => ?_, fun h => ?_, fun h => ?_⟩
  · unfold Client.renew
    simp only []
    rw [setState_notify, h]
    exact rfl
  · unfold Client.renew
    simp only []
    rw [setState_notify, h]
    exact rfl
  · unfold Client.renew
    simp only []
    rw [setState_notify, h]
    exact rfl
  · unfold Client.rebind Client.renew
    simp only []
    have hn : ({ setState c requesting with lease := none }
        : Client).notify = c.notify := setState_notify c requesting
    rw [setState_notify, hn, h]
    exact rfl

/-- Witness for the C10 theorem: the base client is not yet started
(nil notify channel), and Renew on it returns promptly with the
notification dropped. -/
theorem renew_nonblocking_witness :
    Client.renew clientBase false =
      some (setState clientBase renewing, false) :=
  (renew_nonblocking clientBase false).1 rfl

/-- Whether an event is an `OnBound` invocation. -/
def isBoundEvent : Event → Bool
  | Event.bound _ => true
  | Event.expired _ => false

/-- The number of `OnBound` invocations in an event list. -/
def countBound (evs : List Event) : Nat :=
  (evs.filter isBoundEvent).length

/-- countBound distributes over concatenation. -/
theorem countBound_append (a b : List Event) :
    countBound (a ++ b) = countBound a + countBound b := by
  simp [countBound, List.filter_append]

/-- The event list of `unbound` holds no `OnBound` invocation. -/
theorem countBound_expired_if (b : Bool) (l : Option Lease) :
    countBound (if b then [Event.expired l] else []) = 0 := by
  cases b <;> simp [countBound, isBoundEvent]

/-- discover invokes no callback. -/
theorem discover_events (nl : DHCPv4 → Nat × Lease) (c : Client)
    (sendOk : Bool) (frames : List (Option DHCPv4)) :
    (discover nl c sendOk frames).2.1 = [] := by
  unfold discover
  split
  · rfl
  · split
    · rfl
    · rfl

/-- Every branch of request changes at most the lease field, so any
observation insensitive to the lease is preserved. -/
theorem request_lease_only {α : Type} (g : Client → α)
    (hg : ∀ cc l, g { cc with lease := l } = g cc)
    (nl : DHCPv4 → Nat × Lease) (c : Client) (sendOk : Bool)
    (frames : List (Option DHCPv4))
    (out : Client × List Event × Option String)
    (h : request nl c sendOk frames = some out) : g out.1 = g c := by
  unfold request at h
  split at h
  · exact absurd h (by simp)
  · split at h
    · obtain rfl := Option.some.inj h; rfl
    · split at h
      · obtain rfl := Option.some.inj h; rfl
      · split at h
        · split at h
          · obtain rfl := Option.some.inj h; rfl
          · split at h
            · obtain rfl := Option.some.inj h; rfl
            · split at h
              · obtain rfl := Option.some.inj h; rfl
              · obtain rfl := Option.some.inj h
                exact hg c _
        · split at h
          · simp only [unbound] at h
            obtain rfl := Option.some.inj h
            exact hg c none
          · obtain rfl := Option.some.inj h; rfl

/-- request preserves the OnBound flag. -/
theorem request_onBound (nl : DHCPv4 → Nat × Lease) (c : Client)
    (sendOk : Bool) (frames : List (Option DHCPv4))
    (out : Client × List Event × Option String)
    (h : request nl c sendOk frames = some out) :
    out.1.onBoundSet = c.onBoundSet :=
  request_lease_only (fun cc => cc.onBoundSet) (fun _ _ => rfl)
    nl c sendOk frames out h

/-- The event list of request holds no `OnBound` invocation. -/
theorem request_countBound (nl : DHCPv4 → Nat × Lease) (c : Client)
    (sendOk : Bool) (frames : List (Option DHCPv4))
    (out : Client × List Event × Option String)
    (h : request nl c sendOk frames = some out) :
    countBound out.2.1 = 0 := by
  unfold request at h
  split at h
  · exact absurd h (by simp)
  · split at h
    · obtain rfl := Option.some.inj h; rfl
    · split at h
      · obtain rfl := Option.some.inj h; rfl
      · split at h
        · split at h
          · obtain rfl := Option.some.inj h; rfl
          · split at h
            · obtain rfl := Option.some.inj h; rfl
            · split at h
              · obtain rfl := Option.some.inj h; rfl
              · obtain rfl := Option.some.inj h; rfl
        · split at h
          · simp only [unbound] at h
            obtain rfl := Option.some.inj h
            exact countBound_expired_if c.onExpireSet c.lease
          · obtain rfl := Option.some.inj h; rfl

/-- discover preserves the OnBound flag. -/
theorem discover_onBound (nl : DHCPv4 → Nat × Lease) (c : Client)
    (sendOk : Bool) (frames : List (Option DHCPv4)) :
    (discover nl c sendOk frames).1.onBoundSet = c.onBoundSet := by
  unfold discover
  split
  · rfl
  · split
    · rfl
    · rfl

/-- discoverAndRequest preserves the OnBound flag. -/
theorem discoverAndRequest_onBound (nl : DHCPv4 → Nat × Lease)
    (c : Client) (s1 : Bool) (f1 : List (Option DHCPv4))
    (s2 : Bool) (f2 : List (Option DHCPv4))
    (out : Client × List Event × Option String)
    (h : discoverAndRequest nl c s1 f1 s2 f2 = some out) :
    out.1.onBoundSet = c.onBoundSet := by
  unfold discoverAndRequest at h
  rcases hdis : discover nl c s1 f1 with ⟨c1, evs1, r1⟩
  rw [hdis] at h
  have hc1 : c1.onBoundSet = c.onBoundSet := by
    have hd := discover_onBound nl c s1 f1
    rw [hdis] at hd
    exact hd
  cases r1 with
  | some e =>
    obtain rfl := Option.some.inj h
    exact hc1
  | none =>
    simp only [] at h
    cases hreq : request nl c1 s2 f2 with
    | none => rw [hreq] at h; exact absurd h (by simp)
    | some out2 =>
      rw [hreq] at h
      rcases out2 with ⟨c2, evs2, r2⟩
      obtain rfl := Option.some.inj h
      exact (request_onBound nl c1 s2 f2 (c2, evs2, r2) hreq).trans hc1

/-- The event list of discoverAndRequest holds no `OnBound`
invocation (the bind callback is run by runOnce, not by the
exchange itself). -/
theorem discoverAndRequest_countBound (nl : DHCPv4 → Nat × Lease)
    (c : Client) (s1 : Bool) (f1 : List (Option DHCPv4))
    (s2 : Bool) (f2 : List (Option DHCPv4))
    (out : Client × List Event × Option String)
    (h : discoverAndRequest nl c s1 f1 s2 f2 = some out) :
    countBound out.2.1 = 0 := by
  unfold discoverAndRequest at h
  rcases hdis : discover nl c s1 f1 with ⟨c1, evs1, r1⟩
  have hevs1 : evs1 = [] := by
    have hd := discover_events nl c s1 f1
    rw [hdis] at hd
    exact hd
  rw [hdis] at h
  subst hevs1
  cases r1 with
  | some e => obtain rfl := Option.some.inj h; rfl
  | none =>
    simp only [] at h
    cases hreq : request nl c1 s2 f2 with
    | none => rw [hreq] at h; exact absurd h (by simp)
    | some out2 =>
      rw [hreq] at h
      rcases out2 with ⟨c2, evs2, r2⟩
      obtain rfl := Option.some.inj h
      have hcb := request_countBound nl c1 s2 f2 (c2, evs2, r2) hreq
      simpa using hcb

/-- The event list of a completed withConnection is the wrapped
transaction event list: no `OnBound` invocation when the transaction
has none. -/
theorem withConnection_events (c : Client) (openResult : Option Nat)
    (newXid : Nat)
    (f : Client → Option (Client × List Event × Option String))
    (out : Client × List Event × Option String)
    (h : withConnection c openResult newXid f = some out)
    (hf : ∀ cc o2, f cc = some o2 → countBound o2.2.1 = 0) :
    countBound out.2.1 = 0 := by
  unfold withConnection at h
  cases openResult with
  | none => obtain rfl := Option.some.inj h; rfl
  | some sock =>
    simp only [] at h
    cases hf1 : f { c with conn := some sock, xid := newXid } with
    | none => rw [hf1] at h; exact absurd h (by simp)
    | some out2 =>
      rw [hf1] at h
      rcases out2 with ⟨c2, evs, r⟩
      obtain rfl := Option.some.inj h
      exact hf { c with conn := some sock, xid := newXid } (c2, evs, r) hf1

/-- withConnection preserves the OnBound flag when the wrapped
transaction does. -/
theorem withConnection_onBound (c : Client) (openResult : Option Nat)
    (newXid : Nat)
    (f : Client → Option (Client × List Event × Option String))
    (out : Client × List Event × Option String)
    (h : withConnection c openResult newXid f = some out)
    (hf : ∀ cc o2, f cc = some o2 → o2.1.onBoundSet = cc.onBoundSet) :
    out.1.onBoundSet = c.onBoundSet := by
  unfold withConnection at h
  cases openResult with
  | none => obtain rfl := Option.some.inj h; rfl
  | some sock =>
    simp only [] at h
    cases hf1 : f { c with conn := some sock, xid := newXid } with
    | none => rw [hf1] at h; exact absurd h (by simp)
    | some out2 =>
      rw [hf1] at h
      rcases out2 with ⟨c2, evs, r⟩
      obtain rfl := Option.some.inj h
      exact hf { c with conn := some sock, xid := newXid } (c2, evs, r) hf1

/-- The timer select at the end of runOnce appends no `OnBound`
invocation. -/
theorem afterTransaction_countBound (c : Client) (evs : List Event)
    (r : Option String) (sel : SelectOutcome) :
    countBound (afterTransaction c evs r sel).2 = countBound evs := by
  unfold afterTransaction
  split
  · rfl
  · cases sel with
    | notified => rfl
    | expireTimer =>
      simp only [unbound]
      rw [countBound_append, countBound_expired_if]
      omega
    | rebindTimer => rfl
    | renewTimer => rfl

/-- C9: the bind callback is invoked exactly once per run-loop
iteration that takes the discovery (no-lease or requesting) branch and
completes the exchange without error while `OnBound` is set, and zero
times otherwise — in particular the renewal branch of runOnce never
invokes it. -/
theorem onBound_only_on_discovery (nl : DHCPv4 → Nat × Lease)
    (c : Client) (env : RunEnv)
    (out : Client × List Event × Option String)
    (h : runOnce nl c env = some out) :
    countBound out.2.1 =
      (if (c.lease = none ∨ c.state = requesting) ∧ out.2.2 = none ∧
          c.onBoundSet = true then 1 else 0) := by
  unfold runOnce at h
  split at h
  · rename_i hcond
    cases hwc : withConnection c env.openResult env.newXid
        (fun cc => discoverAndRequest nl cc env.sendOk1 env.frames1
          env.sendOk2 env.frames2) with
    | none => rw [hwc] at h; exact absurd h (by simp)
    | some out1 =>
      rw [hwc] at h
      rcases out1 with ⟨c1, evs, r⟩
      have hevs : countBound evs = 0 :=
        withConnection_events c env.openResult env.newXid _ (c1, evs, r) hwc
          (fun cc o2 hh => discoverAndRequest_countBound nl cc env.sendOk1
            env.frames1 env.sendOk2 env.frames2 o2 hh)
      have honb : c1.onBoundSet = c.onBoundSet :=
        withConnection_onBound c env.openResult env.newXid _ (c1, evs, r) hwc
          (fun cc o2 hh => discoverAndRequest_onBound nl cc env.sendOk1
            env.frames1 env.sendOk2 env.frames2 o2 hh)
      simp only [] at h
      by_cases hb : r = none ∧ c1.onBoundSet = true
      · rw [if_pos hb] at h
        rcases hat : afterTransaction c1 (evs ++ [Event.bound c1.lease])
            r env.sel with ⟨c2, evs2⟩
        rw [hat] at h
        obtain rfl := Option.some.inj h
        have hcb := afterTransaction_countBound c1
          (evs ++ [Event.bound c1.lease]) r env.sel
        rw [hat] at hcb
        have hone : countBound evs2 = 1 := by
          rw [hcb, countBound_append, hevs]
          rfl
        rw [hone, if_pos ⟨hcond, hb.1, by rw [← honb]; exact hb.2⟩]
      · rw [if_neg hb] at h
        rcases hat : afterTransaction c1 evs r env.sel with ⟨c2, evs2⟩
        rw [hat] at h
        obtain rfl := Option.some.inj h
        have hcb := afterTransaction_countBound c1 evs r env.sel
        rw [hat] at hcb
        have hzero : countBound evs2 = 0 := hcb.trans hevs
        rw [hzero, if_neg]
        intro hx
        exact hb ⟨hx.2.1, by rw [honb]; exact hx.2.2⟩
  · rename_i hcond
    cases hwc : withConnection c env.openResult env.newXid
        (fun cc => request nl cc env.sendOk2 env.frames2) with
    | none => rw [hwc] at h; exact absurd h (by simp)
    | some out1 =>
      rw [hwc] at h
      rcases out1 with ⟨c1, evs, r⟩
      have hevs : countBound evs = 0 :=
        withConnection_events c env.openResult env.newXid _ (c1, evs, r) hwc
          (fun cc o2 hh => request_countBound nl cc env.sendOk2
            env.frames2 o2 hh)
      simp only [] at h
      rcases hat : afterTransaction c1 evs r env.sel with ⟨c2, evs2⟩
      rw [hat] at h
      obtain rfl := Option.some.inj h
      have hcb := afterTransaction_countBound c1 evs r env.sel
      rw [hat] at hcb
      rw [hcb.trans hevs, if_neg]
      intro hx
      exact hcond hx.1

/-- The environment of the concrete successful discovery iteration:
socket 3 opens, the Offer and fully-timed Ack arrive, and the renew
timer fires first afterwards. -/
def envGood : RunEnv :=
  { openResult := some 3
    newXid := 7
    sendOk1 := true
    frames1 := [some pOffer]
    sendOk2 := true
    frames2 := [some pAckGood]
    sel := SelectOutcome.renewTimer }

/-- The outcome of that iteration: lease bound, one OnBound invocation,
renewing state. -/
def runOnceOut : Client × List Event × Option String :=
  ({ clientBase with
       lease := some offerLease
       conn := none
       closedSocks := [3]
       state := renewing },
   [Event.bound (some offerLease)], none)

/-- Witness for the C9 theorem: the concrete successful discovery
iteration invokes the bind callback exactly once. -/
theorem onBound_only_on_discovery_witness :
    countBound runOnceOut.2.1 =
      (if (clientBase.lease = none ∨ clientBase.state = requesting) ∧
          runOnceOut.2.2 = none ∧ clientBase.onBoundSet = true
        then 1 else 0) :=
  onBound_only_on_discovery nlTest clientBase envGood runOnceOut (by decide)

end Dhclient
